import Mathlib

/-!
Verification of the tunnel server in `server.go` (package `h2tun`).

The Go code is shallowly embedded: the registry `hostConn map[string]net.Conn`
is an association list from keys to connection identifiers, connections are
opaque identifiers, and each Go function is translated to a Lean function over
that state.  Side-effecting steps whose outcome is decided outside the server
(peer certificate extraction, the remote end of the handshake round trip) are
inputs of the embedded functions.
-/

namespace H2tun

/-- A `net.Conn` is opaque to the server logic; we identify connections by a number. -/
abbrev Conn := Nat

/-- `AllowedClient` from server.go: certificate identity and routing host.
The `Listeners` field only feeds the accept loops and carries no registry logic. -/
structure AllowedClient where
  id : Nat
  host : String
deriving DecidableEq

/-- The state of `Server.hostConn : map[string]net.Conn`, as an association list. -/
abbrev Registry := List (String × Conn)

/-- `hostPort` from server.go: `fmt.Sprint(host, ":443")`. -/
def hostPort (host : String) : String := host ++ ":443"

/-- Go map read `s.hostConn[key]`: first binding for the key, if any. -/
def lookupConn : Registry → String → Option Conn
  | [], _ => none
  | (k, c) :: rest, key => if k = key then some c else lookupConn rest key

/-- `Server.addHostConn` from server.go: fails (leaving the map alone) when the
key is occupied, otherwise stores the connection under `hostPort(client.Host)`. -/
def addHostConn (m : Registry) (client : AllowedClient) (conn : Conn) :
    Except String Registry :=
  let key := hostPort client.host
  match lookupConn m key with
  | some _ => .error "client already connected"
  | none => .ok ((key, conn) :: m)

/-- `Server.deleteHostConn` from server.go: `delete(s.hostConn, hostPort(host))`. -/
def deleteHostConn (m : Registry) (host : String) : Registry :=
  m.filter (fun p => decide (p.1 ≠ hostPort host))

/-- `Server.checkID` from server.go: linear scan of `AllowedClients` for an
equal certificate identity. -/
def checkID (allowed : List AllowedClient) (i : Nat) : Option AllowedClient :=
  match allowed with
  | [] => none
  | c :: rest => if i = c.id then some c else checkID rest i

/-- The `DialTLS` hook installed by `Server.initHTTPClient`: a registry lookup
that returns the registered control connection, or an error when the address
has no entry; it never opens a socket. -/
def dialTLS (hostConn : Registry) (addr : String) : Except String Conn :=
  match lookupConn hostConn addr with
  | some conn => .ok conn
  | none => .error ("no connection for " ++ addr)

/-- Number of registry bindings for a key. -/
def countKey (m : Registry) (key : String) : Nat :=
  (m.filter (fun p => decide (p.1 = key))).length

/-- One registry mutation, as performed by the server: a registration attempt
(`addHostConn`, keeping the old map on failure) or a removal (`deleteHostConn`). -/
inductive RegOp where
  | reg (client : AllowedClient) (conn : Conn)
  | unreg (host : String)

/-- Apply one registry operation to the map, as the server does. -/
def applyOp (m : Registry) : RegOp → Registry
  | .reg client conn =>
    match addHostConn m client conn with
    | .ok m1 => m1
    | .error _ => m
  | .unreg host => deleteHostConn m host

/-- The registry reached from the empty map (`initHTTPClient`) by a sequence of
register/unregister operations. -/
def applyOps (ops : List RegOp) : Registry :=
  ops.foldl applyOp []

/-- Modelled from the spec: `url` (defined outside server.go) builds the
outbound request URL addressed at the client's configured host; the multiplexed
transport then dials that host at the fixed control port, which is why registry
keys carry `hostPort`.  We model the address the `DialTLS` hook receives. -/
def dialAddr (host : String) : String := hostPort host

/-- `s.httpClient.Do(req)`: the transport first acquires a connection through
the `DialTLS` hook (a registry lookup), then performs the round trip whose
outcome (`.error e` for a transport error, `.ok status` for a response) is
decided by the remote client, hence an input here. -/
def httpDo (m : Registry) (addr : String) (remote : Except String Nat) :
    Except String Nat :=
  match dialTLS m addr with
  | .error e => .error e
  | .ok _ => remote

/-- Outcomes of `Server.handleClient`, one per exit path of the Go function. -/
inductive HandleOutcome where
  | certError
  | unknownCert
  | invalidHost
  | duplicate
  | handshakeError
  | handshakeBadStatus
  | active
deriving DecidableEq

/-- Result of `Server.handleClient`: the registry afterwards, whether the
accepted connection was closed, and which exit path was taken. -/
structure HandleResult where
  registry : Registry
  connClosed : Bool
  outcome : HandleOutcome
deriving DecidableEq

/-- Inputs of one `handleClient` run that are decided outside the server:
the result of `peerID(conn)` (certificate error or identity), whether
`http.NewRequest` failed for the client host, whether `conn.SetDeadline`
failed (recoverable, log only), and the remote side of the handshake. -/
structure HandshakeEnv where
  peerId : Except String Nat
  newRequestErr : Bool
  setDeadlineErr : Bool
  doResult : Except String Nat

/-- The `reject:` label of `handleClient`: close the connection, and when a
client was already resolved, delete its host key from the registry. -/
def rejectWith (m : Registry) (client : Option AllowedClient) (o : HandleOutcome) :
    HandleResult :=
  { registry :=
      match client with
      | some c => deleteHostConn m c.host
      | none => m
    connClosed := true
    outcome := o }

/-- `Server.handleClient` from server.go, as a function from the accepted
connection, the current registry and the environment to the resulting state:
certificate check, allow-list check, request creation, registration, then the
self-addressed handshake round trip; every failure jumps to `reject`. -/
def handleClient (allowed : List AllowedClient) (m : Registry) (conn : Conn)
    (env : HandshakeEnv) : HandleResult :=
  match env.peerId with
  | .error _ => rejectWith m none .certError
  | .ok i =>
    match checkID allowed i with
    | none => rejectWith m none .unknownCert
    | some client =>
      if env.newRequestErr then rejectWith m (some client) .invalidHost
      else
        match addHostConn m client conn with
        | .error _ => rejectWith m (some client) .duplicate
        | .ok m1 =>
          match httpDo m1 (dialAddr client.host) env.doResult with
          | .error _ => rejectWith m1 (some client) .handshakeError
          | .ok status =>
            if status = 200 then ⟨m1, false, .active⟩
            else rejectWith m1 (some client) .handshakeBadStatus

/-- Result of `net.Listener.Accept` as the loops see it. -/
inductive AcceptResult where
  | accepted (conn : Conn)
  | acceptError (e : String)

/-- What one iteration of an accept loop does with the accept result. -/
inductive LoopStep where
  | spawnHandlerAndContinue (conn : Conn)
  | logAndContinue
  | exitLoop
deriving DecidableEq

/-- The body of `Server.listenControl`: on accept error, log a warning and
`continue`; on success, spawn `handleClient` and loop again. -/
def listenControlStep : AcceptResult → LoopStep
  | .acceptError _ => .logAndContinue
  | .accepted conn => .spawnHandlerAndContinue conn

/-- The body of `Server.listen` (per-client raw listener loop): on accept
error, log and `continue`; on success, spawn a proxy operation and loop. -/
def listenStep : AcceptResult → LoopStep
  | .acceptError _ => .logAndContinue
  | .accepted conn => .spawnHandlerAndContinue conn

/-- Listener state: `Server.Close` closes the underlying listener. -/
structure ListenerState where
  closed : Bool

/-- `Server.Close` from server.go: closes the control listener. -/
def closeServer (_st : ListenerState) : ListenerState := { closed := true }

/-- `Accept` on a listener: after the listener is closed every call fails with
`use of closed network connection`; otherwise it yields the next connection. -/
def accept (st : ListenerState) (incoming : Conn) : AcceptResult :=
  if st.closed then .acceptError "use of closed network connection"
  else .accepted incoming

/-- The local unit handed to `Server.proxy` as `r`: a raw accepted connection
(`net.Conn`, which implements `io.Closer`) or an HTTP request
(`*http.Request`, which has no `Close() error` method). -/
inductive LocalUnit where
  | raw (conn : Conn)
  | httpReq (reqId : Nat)
deriving DecidableEq

/-- The Go type assertion `r.(io.Closer)` in the deferred cleanup of `proxy`:
it succeeds for a `net.Conn` and fails for an `*http.Request`. -/
def isCloser : LocalUnit → Bool
  | .raw _ => true
  | .httpReq _ => false

/-- Whether `proxy`'s response handling takes the HTTP branch
(`w.(http.ResponseWriter)` succeeds exactly for the HTTP entry point). -/
def isHTTPUnit : LocalUnit → Bool
  | .raw _ => false
  | .httpReq _ => true

/-- Events of one `proxy` run as observed in the order the main task
establishes them: the remote-to-local direction ends (streamed or aborted),
the `<-localToRemoteDone` receive returns, the deferred close of the local
unit runs when the unit is a Closer, and the function returns. -/
inductive ProxyEvent where
  | remoteRoundTripFailed
  | remoteStreamed
  | localToRemoteDone
  | localUnitClosed
  | operationComplete
deriving DecidableEq

/-- Inputs of one `proxy` run decided outside the server: whether the
local-to-remote copy hit an error (logged inside `transfer`, never changing
control flow), the remote side of the round trip, and whether parsing the
inner HTTP response failed. -/
structure ProxyEnv where
  localCopyErr : Bool
  remoteResult : Except String Nat
  readResponseErr : Bool

/-- How the remote-to-local direction of `proxy` ends: the round trip goes
through `httpClient.Do` (registry dial, then the remote), aborting on a
transport error; in the HTTP branch a response-parse failure also aborts;
otherwise bytes are streamed to the local writer. -/
def remoteToLocalEnd (m : Registry) (host : String) (u : LocalUnit)
    (env : ProxyEnv) : ProxyEvent :=
  match httpDo m (dialAddr host) env.remoteResult with
  | .error _ => .remoteRoundTripFailed
  | .ok _ =>
    if isHTTPUnit u && env.readResponseErr then .remoteRoundTripFailed
    else .remoteStreamed

/-- `Server.proxy` from server.go, as the sequence of completion events of one
run: `localToRemote` runs concurrently but always ends by closing its done
channel, the main task finishes `remoteToLocal`, then blocks on
`<-localToRemoteDone`, then the deferred `r.(io.Closer)` close runs, then the
operation is complete. -/
def proxyTrace (m : Registry) (host : String) (u : LocalUnit) (env : ProxyEnv) :
    List ProxyEvent :=
  remoteToLocalEnd m host u env ::
    ProxyEvent.localToRemoteDone ::
      ((if isCloser u then [ProxyEvent.localUnitClosed] else []) ++
        [ProxyEvent.operationComplete])

/-- An index scan: position of the last occurrence of a character (Go's
`last(s, b)` used by `net.SplitHostPort`). -/
def lastIdx : List Char → Char → Option Nat
  | [], _ => none
  | c :: cs, t =>
    match lastIdx cs t with
    | some j => some (j + 1)
    | none => if c = t then some 0 else none

/-- Position of the first occurrence of a character (Go's `byteIndex`). -/
def firstIdx : List Char → Char → Option Nat
  | [], _ => none
  | c :: cs, t => if c = t then some 0 else (firstIdx cs t).map (· + 1)

/-- Character membership test (Go's `byteIndex(s, b) >= 0`). -/
def hasChar : List Char → Char → Bool
  | [], _ => false
  | c :: cs, t => if c = t then true else hasChar cs t

/-- `net.SplitHostPort` as called by `trimPort`: the port starts after the
last colon; a leading `[` selects the bracketed (IPv-literal) form; stray
colons or brackets are errors.  All error returns collapse to `none` since
`trimPort` discards the error and the empty host it comes with. -/
def splitHostPort (hp : List Char) : Option (List Char × List Char) :=
  match lastIdx hp ':' with
  | none => none
  | some i =>
    if hp.head? = some '[' then
      match firstIdx hp ']' with
      | none => none
      | some e =>
        if e + 1 = hp.length then none
        else if e + 1 = i then
          if hasChar (hp.drop 1) '[' then none
          else if hasChar (hp.drop (e + 1)) ']' then none
          else some ((hp.drop 1).take (e - 1), hp.drop (i + 1))
        else none
    else
      let host := hp.take i
      if hasChar host ':' then none
      else if hasChar hp '[' then none
      else if hasChar hp ']' then none
      else some (host, hp.drop (i + 1))

/-- `trimPort` from server.go: `net.SplitHostPort` with the port and error
discarded; when the host comes back empty (parse error or empty host part)
the original value is returned unchanged. -/
def trimPort (hp : List Char) : List Char :=
  match splitHostPort hp with
  | none => hp
  | some (host, _) => if host = [] then hp else host

/-- The model of an incoming request as `Server.ServeHTTP` reads it. -/
structure HTTPRequest where
  host : List Char
  remoteAddr : String
  urlPath : String

/-- The routing host `Server.ServeHTTP` passes to `proxy`: `trimPort(r.Host)`. -/
def serveHTTPProxyHost (r : HTTPRequest) : List Char := trimPort r.host

/-! ## Supporting lemmas -/

theorem lookupConn_eq_none_iff (m : Registry) (key : String) :
    lookupConn m key = none ↔ ∀ p ∈ m, p.1 ≠ key := by
  induction m with
  | nil => simp [lookupConn]
  | cons p rest ih =>
    obtain ⟨k, c⟩ := p
    by_cases hk : k = key
    · subst hk
      simp [lookupConn]
    · simp [lookupConn, hk, ih]

theorem countKey_nil (key : String) : countKey [] key = 0 := rfl

theorem countKey_cons (k : String) (c : Conn) (m : Registry) (key : String) :
    countKey ((k, c) :: m) key =
      (if k = key then 1 else 0) + countKey m key := by
  by_cases hk : k = key <;>
    simp [countKey, hk, List.filter_cons, Nat.add_comm]

theorem countKey_eq_zero_iff (m : Registry) (key : String) :
    countKey m key = 0 ↔ ∀ p ∈ m, p.1 ≠ key := by
  induction m with
  | nil => simp [countKey_nil]
  | cons p rest ih =>
    obtain ⟨k, c⟩ := p
    rw [countKey_cons]
    by_cases hk : k = key
    · simp [hk]
    · simp [hk, ih]

theorem lookupConn_eq_none_iff_countKey (m : Registry) (key : String) :
    lookupConn m key = none ↔ countKey m key = 0 := by
  rw [lookupConn_eq_none_iff, countKey_eq_zero_iff]

theorem deleteHostConn_cons (k : String) (c : Conn) (m : Registry) (host : String) :
    deleteHostConn ((k, c) :: m) host =
      if k = hostPort host then deleteHostConn m host
      else (k, c) :: deleteHostConn m host := by
  by_cases hk : k = hostPort host <;> simp [deleteHostConn, List.filter_cons, hk]

theorem countKey_deleteHostConn (m : Registry) (host key : String) :
    countKey (deleteHostConn m host) key =
      if key = hostPort host then 0 else countKey m key := by
  induction m with
  | nil => by_cases h : key = hostPort host <;> simp [deleteHostConn, countKey_nil, h]
  | cons p rest ih =>
    obtain ⟨k, c⟩ := p
    rw [deleteHostConn_cons]
    by_cases hk : k = hostPort host
    · rw [if_pos hk, ih, countKey_cons]
      by_cases hkey : key = hostPort host
      · simp [hkey]
      · rw [if_neg hkey, if_neg hkey, if_neg (fun h : k = key => hkey (h ▸ hk)),
          Nat.zero_add]
    · rw [if_neg hk, countKey_cons, ih, countKey_cons]
      by_cases hkey : key = hostPort host
      · rw [if_pos hkey, if_pos hkey, if_neg (fun h : k = key => hk (h.trans hkey))]
      · rw [if_neg hkey, if_neg hkey]

theorem addHostConn_eq (m : Registry) (client : AllowedClient) (conn : Conn) :
    addHostConn m client conn =
      match lookupConn m (hostPort client.host) with
      | some _ => .error "client already connected"
      | none => .ok ((hostPort client.host, conn) :: m) := rfl

theorem countKey_applyOp_le (m : Registry) (op : RegOp) (key : String)
    (h : countKey m key ≤ 1) : countKey (applyOp m op) key ≤ 1 := by
  cases op with
  | reg client conn =>
    cases hl : lookupConn m (hostPort client.host) with
    | some c => simpa [applyOp, addHostConn_eq, hl] using h
    | none =>
      have hz : countKey m (hostPort client.host) = 0 :=
        (lookupConn_eq_none_iff_countKey m _).mp hl
      simp only [applyOp, addHostConn_eq, hl]
      rw [countKey_cons]
      by_cases hk : hostPort client.host = key
      · subst hk; simp [hz]
      · simpa [hk] using h
  | unreg host =>
    unfold applyOp
    rw [countKey_deleteHostConn]
    by_cases hkey : key = hostPort host <;> simp [hkey, h]

theorem countKey_applyOps_le (ops : List RegOp) (key : String) :
    countKey (applyOps ops) key ≤ 1 := by
  suffices h : ∀ (m : Registry), (∀ k, countKey m k ≤ 1) →
      ∀ k, countKey (ops.foldl applyOp m) k ≤ 1 by
    exact h [] (fun k => by simp [countKey_nil]) key
  induction ops with
  | nil => intro m hm k; simpa [List.foldl] using hm k
  | cons op rest ih =>
    intro m hm k
    exact ih (applyOp m op) (fun k2 => countKey_applyOp_le m op k2 (hm k2)) k

theorem lookupConn_deleteHostConn_self (m : Registry) (host : String) :
    lookupConn (deleteHostConn m host) (hostPort host) = none := by
  rw [lookupConn_eq_none_iff_countKey, countKey_deleteHostConn, if_pos rfl]

theorem deleteHostConn_absent (m : Registry) (host : String)
    (h : lookupConn m (hostPort host) = none) : deleteHostConn m host = m := by
  have hall := (lookupConn_eq_none_iff m (hostPort host)).mp h
  apply List.filter_eq_self.mpr
  intro a ha
  simpa using hall a ha

theorem deleteHostConn_idem (m : Registry) (host : String) :
    deleteHostConn (deleteHostConn m host) host = deleteHostConn m host :=
  deleteHostConn_absent (deleteHostConn m host) host
    (lookupConn_deleteHostConn_self m host)

theorem checkID_isSome_iff (allowed : List AllowedClient) (i : Nat) :
    (checkID allowed i).isSome = true ↔ ∃ c ∈ allowed, c.id = i := by
  induction allowed with
  | nil => simp [checkID]
  | cons c rest ih =>
    by_cases hc : i = c.id
    · simp [checkID, hc]
    · simp only [checkID, if_neg hc, ih, List.mem_cons]
      constructor
      · rintro ⟨d, hd, hdi⟩
        exact ⟨d, Or.inr hd, hdi⟩
      · rintro ⟨d, rfl | hd, hdi⟩
        · exact absurd hdi.symm hc
        · exact ⟨d, hd, hdi⟩

theorem checkID_some_spec (allowed : List AllowedClient) (i : Nat)
    (c : AllowedClient) (h : checkID allowed i = some c) :
    c ∈ allowed ∧ c.id = i := by
  induction allowed with
  | nil => simp [checkID] at h
  | cons d rest ih =>
    by_cases hd : i = d.id
    · rw [checkID, if_pos hd] at h
      injection h with h2
      subst h2
      exact ⟨List.mem_cons_self _ _, hd.symm⟩
    · rw [checkID, if_neg hd] at h
      obtain ⟨hmem, hid⟩ := ih h
      exact ⟨List.mem_cons_of_mem d hmem, hid⟩

theorem remoteToLocalEnd_cases (m : Registry) (host : String) (u : LocalUnit)
    (env : ProxyEnv) :
    remoteToLocalEnd m host u env = .remoteRoundTripFailed ∨
      remoteToLocalEnd m host u env = .remoteStreamed := by
  unfold remoteToLocalEnd
  cases httpDo m (dialAddr host) env.remoteResult with
  | error e => exact Or.inl rfl
  | ok s =>
    by_cases hb : (isHTTPUnit u && env.readResponseErr) = true <;> simp [hb]

theorem lastIdx_eq_none (l : List Char) (t : Char) (h : hasChar l t = false) :
    lastIdx l t = none := by
  induction l with
  | nil => rfl
  | cons c cs ih =>
    by_cases hc : c = t
    · simp [hasChar, hc] at h
    · simp only [hasChar, if_neg hc] at h
      simp [lastIdx, ih h, if_neg hc]

theorem lastIdx_append_colon (h p : List Char) (hpc : hasChar p ':' = false) :
    lastIdx (h ++ ':' :: p) ':' = some h.length := by
  induction h with
  | nil => simp [lastIdx, lastIdx_eq_none p ':' hpc]
  | cons c cs ih => simp [lastIdx, ih]

theorem hasChar_append (a b : List Char) (t : Char) :
    hasChar (a ++ b) t = (hasChar a t || hasChar b t) := by
  induction a with
  | nil => simp [hasChar]
  | cons c cs ih => by_cases hc : c = t <;> simp [hasChar, hc, ih]

theorem hasChar_cons_false (c : Char) (cs : List Char) (t : Char)
    (h : hasChar (c :: cs) t = false) : ¬ c = t ∧ hasChar cs t = false := by
  by_cases hc : c = t
  · simp [hasChar, hc] at h
  · simp only [hasChar, if_neg hc] at h
    exact ⟨hc, h⟩

theorem splitHostPort_hostport (h p : List Char)
    (hhc : hasChar h ':' = false) (hhb : hasChar h '[' = false)
    (hhrb : hasChar h ']' = false) (hpc : hasChar p ':' = false)
    (hpb : hasChar p '[' = false) (hprb : hasChar p ']' = false) :
    splitHostPort (h ++ ':' :: p) = some (h, p) := by
  have hlast := lastIdx_append_colon h p hpc
  have hhead : ¬ (h ++ ':' :: p).head? = some '[' := by
    cases h with
    | nil => simp
    | cons c cs =>
      have hc := (hasChar_cons_false c cs '[' hhb).1
      simp [hc]
  have hball : hasChar (h ++ ':' :: p) '[' = false := by
    rw [hasChar_append]
    simp only [hhb, Bool.false_or]
    simp [hasChar, hpb]
  have hrball : hasChar (h ++ ':' :: p) ']' = false := by
    rw [hasChar_append]
    simp only [hhrb, Bool.false_or]
    simp [hasChar, hprb]
  have htake : (h ++ ':' :: p).take h.length = h := List.take_left h (':' :: p)
  have hdrop : (h ++ ':' :: p).drop (h.length + 1) = p := by
    have heq : h ++ ':' :: p = (h ++ [':']) ++ p := by simp
    have hlen : h.length + 1 = (h ++ [':']).length := by simp
    rw [heq, hlen, List.drop_left]
  unfold splitHostPort
  rw [hlast]
  simp only [if_neg hhead, htake, hhc, hball, hrball, hdrop]
  simp

/-! ## Claims -/

/-- C1: per the spec a duplicate registration should close the new connection
and leave the existing registry entry untouched; `handleClient` does reject
and close the new connection, but its shared `reject:` cleanup then calls
`deleteHostConn(client.Host)`, removing the existing entry that belongs to the
first connection.  Concretely: host "a" is registered to connection 7; a
second connection 8 authenticating as the same client ends with outcome
`duplicate` and closed, yet the registry entry `"a:443" ↦ 7` is gone. -/
theorem duplicate_registration_removes_existing_entry :
    handleClient [⟨1, "a"⟩] [("a:443", 7)] 8 ⟨.ok 1, false, false, .ok 200⟩ =
      ⟨[], true, .duplicate⟩ ∧
    lookupConn (handleClient [⟨1, "a"⟩] [("a:443", 7)] 8
        ⟨.ok 1, false, false, .ok 200⟩).registry "a:443" = none := by
  decide

/-- C2: starting from the empty registry, any sequence of register/unregister
operations keeps at most one binding per key; a registration attempt succeeds
(inserting the connection under `hostPort(client.Host)`) exactly when the key
is absent, and fails leaving the registry unchanged exactly when the key is
occupied. -/
theorem registry_single_owner_per_key (ops : List RegOp) (client : AllowedClient)
    (conn : Conn) (key : String) :
    countKey (applyOps ops) key ≤ 1 ∧
    (match addHostConn (applyOps ops) client conn with
     | .ok m1 =>
        lookupConn (applyOps ops) (hostPort client.host) = none ∧
        lookupConn m1 (hostPort client.host) = some conn
     | .error _ =>
        (lookupConn (applyOps ops) (hostPort client.host)).isSome = true ∧
        applyOp (applyOps ops) (.reg client conn) = applyOps ops) := by
  refine ⟨countKey_applyOps_le ops key, ?_⟩
  cases hl : lookupConn (applyOps ops) (hostPort client.host) with
  | none => simp [addHostConn_eq, hl, lookupConn]
  | some c => simp [addHostConn_eq, hl, applyOp]

/-- C3: after `Server.Close` closes the control listener, every `Accept` call
fails, but both accept-loop bodies (`listenControl` and the per-client
`listen`) answer every accept error, the closed-listener error included, with
a log-and-`continue`; neither loop observes the closed listener and exits, so
the accept is retried indefinitely, contrary to the spec's lifecycle. -/
theorem accept_loops_retry_after_close (st : ListenerState) (incoming : Conn) :
    listenControlStep (accept (closeServer st) incoming) = .logAndContinue ∧
    listenStep (accept (closeServer st) incoming) = .logAndContinue := by
  constructor <;> rfl

/-- C4: the `DialTLS` hook installed by `initHTTPClient` performs only a
registry lookup: it returns the control connection registered under the
destination address when one exists, and fails with the no-route error when no
entry exists. -/
theorem dialTLS_returns_registered_or_fails (m : Registry) (addr : String) :
    (match lookupConn m addr with
     | some c => dialTLS m addr = .ok c
     | none => dialTLS m addr = .error ("no connection for " ++ addr)) := by
  cases h : lookupConn m addr <;> simp [dialTLS, h]

/-- C5: `checkID` accepts an identity exactly when some entry of the static
`AllowedClients` list has an equal identity, and the returned client is such a
matching list entry; every identity not present in the list is rejected. -/
theorem checkID_accepts_exactly_allowed (allowed : List AllowedClient) (i : Nat) :
    ((checkID allowed i).isSome = true ↔ ∃ c ∈ allowed, c.id = i) ∧
    (match checkID allowed i with
     | some c => c ∈ allowed ∧ c.id = i
     | none => True) := by
  refine ⟨checkID_isSome_iff allowed i, ?_⟩
  cases h : checkID allowed i with
  | none => trivial
  | some c => exact checkID_some_spec allowed i c h

/-- C6: a control connection that authenticates and registers reaches `active`
exactly when the self-addressed handshake round trip returns status 200; on a
transport error or any other status the connection is closed and the
just-created registry entry for the client's host is removed. -/
theorem handshake_gates_active (allowed : List AllowedClient) (m : Registry)
    (conn : Conn) (i : Nat) (sdErr : Bool) (doRes : Except String Nat)
    (client : AllowedClient)
    (hcheck : checkID allowed i = some client)
    (hfree : lookupConn m (hostPort client.host) = none) :
    ((handleClient allowed m conn ⟨.ok i, false, sdErr, doRes⟩).outcome = .active ↔
      doRes = .ok 200) ∧
    (doRes ≠ .ok 200 →
      (handleClient allowed m conn ⟨.ok i, false, sdErr, doRes⟩).connClosed = true ∧
      lookupConn (handleClient allowed m conn ⟨.ok i, false, sdErr, doRes⟩).registry
        (hostPort client.host) = none) := by
  have hkey : lookupConn ((hostPort client.host, conn) :: m) (hostPort client.host)
      = some conn := by simp [lookupConn]
  have hrun : handleClient allowed m conn ⟨.ok i, false, sdErr, doRes⟩ =
      match doRes with
      | .error _ =>
        rejectWith ((hostPort client.host, conn) :: m) (some client) .handshakeError
      | .ok status =>
        if status = 200 then ⟨(hostPort client.host, conn) :: m, false, .active⟩
        else rejectWith ((hostPort client.host, conn) :: m) (some client)
          .handshakeBadStatus := by
    unfold handleClient
    simp only [hcheck, addHostConn_eq, hfree, httpDo, dialTLS, dialAddr, hkey,
      Bool.false_eq_true, if_false]
  rw [hrun]
  cases doRes with
  | error e => simp [rejectWith, lookupConn_deleteHostConn_self]
  | ok status =>
    by_cases hs : status = 200
    · simp [hs]
    · have : Except.ok (ε := String) status ≠ Except.ok 200 := by
        intro hco
        exact hs (by injection hco)
      simp [hs, rejectWith, lookupConn_deleteHostConn_self, this]

/-- Witness for C6 at a concrete input: one allowed client for host "a", empty
registry, handshake answered with status 200. -/
theorem handshake_gates_active_witness :
    ((handleClient [⟨1, "a"⟩] [] 8 ⟨.ok 1, false, false, .ok 200⟩).outcome =
        .active ↔ (Except.ok 200 : Except String Nat) = .ok 200) ∧
    ((Except.ok 200 : Except String Nat) ≠ .ok 200 →
      (handleClient [⟨1, "a"⟩] [] 8 ⟨.ok 1, false, false, .ok 200⟩).connClosed =
        true ∧
      lookupConn (handleClient [⟨1, "a"⟩] [] 8
          ⟨.ok 1, false, false, .ok 200⟩).registry
        (hostPort (AllowedClient.mk 1 "a").host) = none) :=
  handshake_gates_active [⟨1, "a"⟩] [] 8 1 false (.ok 200) ⟨1, "a"⟩
    (by decide) (by decide)

/-- C7: when authentication fails (certificate error, or an identity matched
by no allowed client) the connection is closed and the registry is left
exactly as it was: no entry created, none removed. -/
theorem auth_failure_closes_and_preserves_registry (allowed : List AllowedClient)
    (m : Registry) (conn : Conn) (env : HandshakeEnv)
    (hfail : (∃ e, env.peerId = .error e) ∨
      (∃ i, env.peerId = .ok i ∧ checkID allowed i = none)) :
    (handleClient allowed m conn env).connClosed = true ∧
    (handleClient allowed m conn env).registry = m := by
  rcases hfail with ⟨e, he⟩ | ⟨i, hi, hc⟩
  · unfold handleClient
    rw [he]
    exact ⟨rfl, rfl⟩
  · unfold handleClient
    rw [hi]
    simp only [hc]
    exact ⟨rfl, rfl⟩

/-- Witness for C7 at a concrete input: a certificate error with a non-empty
registry, which is preserved unchanged. -/
theorem auth_failure_witness :
    (handleClient [⟨1, "a"⟩] [("b:443", 7)] 8
        ⟨.error "bad certificate", false, false, .ok 200⟩).connClosed = true ∧
    (handleClient [⟨1, "a"⟩] [("b:443", 7)] 8
        ⟨.error "bad certificate", false, false, .ok 200⟩).registry =
      [("b:443", 7)] :=
  auth_failure_closes_and_preserves_registry [⟨1, "a"⟩] [("b:443", 7)] 8
    ⟨.error "bad certificate", false, false, .ok 200⟩
    (Or.inl ⟨"bad certificate", rfl⟩)

/-- C8: `deleteHostConn` is idempotent, is a no-op on an absent key, and
`deleteHostConn` followed by `addHostConn` with the same host always succeeds
whatever the registry held before. -/
theorem unregister_noop_idempotent_then_register (m : Registry)
    (client : AllowedClient) (conn : Conn) :
    deleteHostConn (deleteHostConn m client.host) client.host =
      deleteHostConn m client.host ∧
    (lookupConn m (hostPort client.host) = none →
      deleteHostConn m client.host = m) ∧
    (addHostConn (deleteHostConn m client.host) client conn).isOk = true := by
  refine ⟨deleteHostConn_idem m client.host, deleteHostConn_absent m client.host, ?_⟩
  rw [addHostConn_eq, lookupConn_deleteHostConn_self]
  rfl

/-- Witness for C8 at a concrete input: host "a" occupied by connection 5,
re-registered as connection 9 after an unregister. -/
theorem unregister_register_witness :
    deleteHostConn (deleteHostConn [("a:443", 5)] (AllowedClient.mk 1 "a").host)
        (AllowedClient.mk 1 "a").host =
      deleteHostConn [("a:443", 5)] (AllowedClient.mk 1 "a").host ∧
    (lookupConn [("a:443", 5)] (hostPort (AllowedClient.mk 1 "a").host) = none →
      deleteHostConn [("a:443", 5)] (AllowedClient.mk 1 "a").host =
        [("a:443", 5)]) ∧
    (addHostConn (deleteHostConn [("a:443", 5)] (AllowedClient.mk 1 "a").host)
        (AllowedClient.mk 1 "a") 9).isOk = true :=
  unregister_noop_idempotent_then_register [("a:443", 5)] (AllowedClient.mk 1 "a") 9

/-- C9 counterexample: in the HTTP case the local unit handed to `proxy` is an
`*http.Request`, which is not an `io.Closer`, so the deferred cleanup closes
nothing: the claim that the local unit is closed unconditionally fails on this
operation. -/
theorem http_proxy_leaves_local_unit_unclosed :
    ProxyEvent.localUnitClosed ∉
      proxyTrace [("a:443", 5)] "a" (.httpReq 0) ⟨false, .ok 200, false⟩ := by
  decide

/-- C9 amended: every `proxy` run, raw or HTTP, succeeding or failing in
either direction, ends only after the remote-to-local direction has finished
and the local-to-remote completion signal has been received; the deferred
cleanup then runs unconditionally, closing the local unit exactly when it is
an `io.Closer` (raw connections; an HTTP request is not one and is not
closed). -/
theorem proxy_completes_both_directions_then_closes (m : Registry)
    (host : String) (u : LocalUnit) (env : ProxyEnv) :
    (proxyTrace m host u env).getLast? = some .operationComplete ∧
    ProxyEvent.localToRemoteDone ∈ (proxyTrace m host u env).dropLast ∧
    (ProxyEvent.remoteRoundTripFailed ∈ proxyTrace m host u env ∨
      ProxyEvent.remoteStreamed ∈ proxyTrace m host u env) ∧
    ((ProxyEvent.localUnitClosed ∈ proxyTrace m host u env) ↔
      isCloser u = true) := by
  have h := remoteToLocalEnd_cases m host u env
  cases u with
  | raw c => rcases h with hev | hev <;> simp [proxyTrace, hev, isCloser]
  | httpReq r => rcases h with hev | hev <;> simp [proxyTrace, hev, isCloser]

/-- C10: the routing host `ServeHTTP` passes to `proxy` is `trimPort` of the
request's Host value: for a `host:port` shaped value (non-empty bracketless
colon-free host, colon-free bracketless port) the port is stripped; a value
without a colon has no port and is passed unchanged; a `:port` value has an
empty host part and is passed unchanged. -/
theorem serveHTTP_routing_host (h p s : List Char) (ra up : String)
    (hne : h ≠ [])
    (hhc : hasChar h ':' = false) (hhb : hasChar h '[' = false)
    (hhrb : hasChar h ']' = false) (hpc : hasChar p ':' = false)
    (hpb : hasChar p '[' = false) (hprb : hasChar p ']' = false)
    (hsc : hasChar s ':' = false) :
    serveHTTPProxyHost ⟨h ++ ':' :: p, ra, up⟩ = h ∧
    serveHTTPProxyHost ⟨s, ra, up⟩ = s ∧
    serveHTTPProxyHost ⟨':' :: p, ra, up⟩ = ':' :: p := by
  refine ⟨?_, ?_, ?_⟩
  · unfold serveHTTPProxyHost trimPort
    rw [splitHostPort_hostport h p hhc hhb hhrb hpc hpb hprb]
    simp [hne]
  · have hnone : splitHostPort s = none := by
      unfold splitHostPort
      rw [lastIdx_eq_none s ':' hsc]
    unfold serveHTTPProxyHost trimPort
    rw [hnone]
  · have h0 := splitHostPort_hostport [] p rfl rfl rfl hpc hpb hprb
    rw [List.nil_append] at h0
    unfold serveHTTPProxyHost trimPort
    rw [h0]
    simp

/-- Witness for C10 at concrete inputs: `"a:8"` routes to `"a"`, `"b"` and
`":8"` are passed unchanged. -/
theorem serveHTTP_routing_host_witness :
    serveHTTPProxyHost ⟨['a'] ++ ':' :: ['8'], "", ""⟩ = ['a'] ∧
    serveHTTPProxyHost ⟨['b'], "", ""⟩ = ['b'] ∧
    serveHTTPProxyHost ⟨':' :: ['8'], "", ""⟩ = ':' :: ['8'] :=
  serveHTTP_routing_host ['a'] ['8'] ['b'] "" "" (by decide) (by decide)
    (by decide) (by decide) (by decide) (by decide) (by decide) (by decide)

end H2tun
